import Mathlib

/-!
Verification of the COPX café point-of-sale repository.

The definitions below are a shallow embedding of the Python source:
database tables become Lean lists of rows, Python dicts become insertion-
ordered association lists, SQL statements become list transformations, and
floating-point quantities are modelled as exact rationals.  Each definition
names the source function it embeds.
-/

set_option autoImplicit false

namespace COPX

/-- Quantities (Python floats / SQL FLOAT) are modelled as exact rationals. -/
abbrev Qty := Rat

/-- Embeds `INGREDIENT_UNITS` from `bom_handler.py`. -/
def INGREDIENT_UNITS : List (String × String) :=
  [("Espresso Beans", "g"), ("Milk", "ml"), ("Hot Water", "ml"), ("Chocolate Syrup", "g")]

/-- First-match lookup in an association list (Python `dict.get`). -/
def lookupStr : List (String × String) → String → Option String
  | [], _ => none
  | p :: rest, k => if p.1 = k then some p.2 else lookupStr rest k

/-- Embeds `INGREDIENT_UNITS.get(ing, "")` from `bom_handler.py`. -/
def unitOf (ing : String) : String := (lookupStr INGREDIENT_UNITS ing).getD ""

/-- Embeds `DEFAULT_BOM` from `bom_handler.py` (dict insertion order preserved). -/
def DEFAULT_BOM : List (String × List (String × Qty)) :=
  [("C1001", [("Espresso Beans", 18)]),
   ("C1002", [("Espresso Beans", 18), ("Milk", 150)]),
   ("C1003", [("Espresso Beans", 18), ("Milk", 200)]),
   ("C1004", [("Espresso Beans", 18), ("Hot Water", 150)]),
   ("C1005", [("Espresso Beans", 18), ("Milk", 150), ("Chocolate Syrup", 25)])]

/-- A row of the `bom` table (`db.py`): (product_id, ingredient, qty_per_unit, unit). -/
structure BomRow where
  product_id : String
  ingredient : String
  qty_per_unit : Qty
  unit : String
deriving DecidableEq

/-- The rows built from `DEFAULT_BOM` by the seeding loop in
`ensure_bom_seeded` (`bom_handler.py` lines 45-55). -/
def defaultBomRows : List BomRow :=
  DEFAULT_BOM.foldl
    (fun acc p => acc ++ p.2.map (fun iq => ⟨p.1, iq.1, iq.2, unitOf iq.1⟩)) []

/-- Embeds `ensure_bom_seeded` (`bom_handler.py` lines 38-55): if the `bom`
table holds at least one row it returns unchanged, otherwise the rows built
from `DEFAULT_BOM` are inserted. -/
def ensure_bom_seeded (b : List BomRow) : List BomRow :=
  if 0 < b.length then b else b ++ defaultBomRows

/-- Embeds the query `SELECT ingredient, qty_per_unit FROM bom WHERE product_id=?`
in `calculate_deduction` (`bom_handler.py` line 68): the matching rows in
table order, projected to (ingredient, qty_per_unit). -/
def getRecipe : List BomRow → String → List (String × Qty)
  | [], _ => []
  | r :: rest, pid =>
    if r.product_id = pid then (r.ingredient, r.qty_per_unit) :: getRecipe rest pid
    else getRecipe rest pid

/-- Python `dict.get(k, 0.0)` on an insertion-ordered association list. -/
def getA : List (String × Qty) → String → Qty
  | [], _ => 0
  | p :: rest, k => if p.1 = k then p.2 else getA rest k

/-- Python `dict[k] = v` on an insertion-ordered association list: update in
place when the key is present, append otherwise. -/
def setA : List (String × Qty) → String → Qty → List (String × Qty)
  | [], k, v => [(k, v)]
  | p :: rest, k, v => if p.1 = k then (k, v) :: rest else p :: setA rest k v

/-- The accumulator step `deduction[ing] = deduction.get(ing, 0.0) + d`
(`bom_handler.py` line 72). -/
def addTo (m : List (String × Qty)) (k : String) (d : Qty) : List (String × Qty) :=
  setA m k (getA m k + d)

/-- Embeds `calculate_deduction` (`bom_handler.py` lines 57-73).  A cart line
is a pair (product_id, quantity).  The function first runs `ensure_bom_seeded`
(which may write to the `bom` table), so the result is the pair of the
possibly-seeded `bom` table and the accumulated deduction dict. -/
def calculate_deduction (b : List BomRow) (cart : List (String × Qty)) :
    List BomRow × List (String × Qty) :=
  let b2 := ensure_bom_seeded b
  (b2,
    cart.foldl
      (fun acc line =>
        (getRecipe b2 line.1).foldl (fun a iq => addTo a iq.1 (iq.2 * line.2)) acc)
      [])

/-- The BOM quantity-per-unit of `ing` in the recipe of `pid` (the spec's
`recipe(line.product_id)[ingredient]`, 0 when absent; summed over the
at-most-one matching row of the composite-keyed `bom` table). -/
def recipeQty (b : List BomRow) (pid ing : String) : Qty :=
  ((getRecipe b pid).map (fun iq => if iq.1 = ing then iq.2 else 0)).sum

/-- A row of the `inventory` table (`db.py`):
(ingredient primary key, quantity, unit, safety_stock). -/
structure InvRow where
  ingredient : String
  quantity : Qty
  unit : String
  safety_stock : Qty
deriving DecidableEq

/-- Point lookup `... FROM inventory WHERE ingredient = ?` (first matching row;
the primary key makes it unique in practice). -/
def findRow : List InvRow → String → Option InvRow
  | [], _ => none
  | r :: rest, ing => if r.ingredient = ing then some r else findRow rest ing

/-- One `MERGE inventory ... WHEN NOT MATCHED THEN INSERT (ingredient, 0, unit)`
statement, as issued per ingredient by `ensure_inventory_rows_exist`
(`billing.py` lines 62-70), by the deduction loop of `finalize_payment`
(`orders.py` lines 141-146) and by `sync_inventory_with_bom`
(`inventory.py` lines 36-45): insert a zero-quantity row if absent, leave the
table unchanged otherwise. -/
def ensureStep (acc : List InvRow) (ing : String) : List InvRow :=
  match findRow acc ing with
  | some _ => acc
  | none => acc ++ [⟨ing, 0, unitOf ing, 0⟩]

/-- Embeds `ensure_inventory_rows_exist` (`billing.py` lines 60-70): the
per-ingredient MERGE loop. -/
def ensure_inventory_rows_exist (inv : List InvRow) (ings : List String) : List InvRow :=
  ings.foldl ensureStep inv

/-- Embeds `UPDATE inventory SET quantity = ISNULL(quantity,0) - ? WHERE ingredient=?`
(`billing.py` line 171, `orders.py` line 147). -/
def updateQtySub (inv : List InvRow) (ing : String) (q : Qty) : List InvRow :=
  inv.map (fun r => if r.ingredient = ing then { r with quantity := r.quantity - q } else r)

/-- Embeds `UPDATE inventory SET quantity = ISNULL(quantity,0) + ? WHERE ingredient=?`
(`order_management.py` line 65). -/
def updateQtyAdd (inv : List InvRow) (ing : String) (q : Qty) : List InvRow :=
  inv.map (fun r => if r.ingredient = ing then { r with quantity := r.quantity + q } else r)

/-- A row of the `billing` table (`db.py`). -/
structure BillingRow where
  invoice_id : String
  customer_id : String
  product_id : String
  product_name : String
  quantity : Qty
  unit_price : Qty
  total : Qty
  timestamp : Nat
deriving DecidableEq

/-- A row of the `inventory_logs` table (`db.py` / `inventory.py`). -/
structure LogEntry where
  ingredient : String
  change_type : String
  quantity_changed : Qty
  old_quantity : Qty
  new_quantity : Qty
  timestamp : Nat
  use_before : Nat
deriving DecidableEq

/-- A row of the `customers` table (`db.py`). -/
structure Customer where
  customer_id : String
  customer_number : String
  customer_name : String
deriving DecidableEq

/-- A row of the `orders` table (`orders.py`); the customer columns are NULL
until payment. -/
structure OrderHeader where
  order_id : String
  status : String
  customer_id : Option String
  customer_number : Option String
  customer_name : Option String
deriving DecidableEq

/-- A row of the `order_items` table (`orders.py`), minus the `order_id` key
it is stored under. -/
structure OrderItem where
  product_id : String
  product_name : String
  quantity : Qty
  unit_price : Qty
  total : Qty
deriving DecidableEq

/-- The relational store the application runs against: one list of rows per
table (`db.py` `init_db`), with `order_items` keyed by order id. -/
structure AppState where
  bom : List BomRow
  inventory : List InvRow
  billing : List BillingRow
  logs : List LogEntry
  customers : List Customer
  orders : List OrderHeader
  order_items : List (String × OrderItem)
deriving DecidableEq

/-- Embeds the inventory-deduction block of the save-invoice handler
(`billing.py` lines 166-173): if the deduction map is non-empty, ensure a row
exists for every deducted ingredient, then run one
`UPDATE ... quantity = ISNULL(quantity,0) - ?` per map entry, in map order. -/
def applyDeduction (inv : List InvRow) (ded : List (String × Qty)) : List InvRow :=
  if ded = [] then inv
  else
    (ded.foldl (fun acc p => updateQtySub acc p.1 p.2)
      (ensure_inventory_rows_exist inv (ded.map (fun p => p.1))))

/-- Embeds the cancellation-restock block of `order_management_page`
(`order_management.py` lines 60-67): ensure rows exist, then one
`UPDATE ... quantity = ISNULL(quantity,0) + ?` per map entry. -/
def applyRestock (inv : List InvRow) (ded : List (String × Qty)) : List InvRow :=
  if ded = [] then inv
  else
    (ded.foldl (fun acc p => updateQtyAdd acc p.1 p.2)
      (ensure_inventory_rows_exist inv (ded.map (fun p => p.1))))

/-- The sale-deduction path as a state transformer: only the inventory table
is written (the SQL in `billing.py` lines 166-173 touches no other table). -/
def apply_sale_delta (s : AppState) (ded : List (String × Qty)) : AppState :=
  { s with inventory := applyDeduction s.inventory ded }

/-- The cancellation-restock path as a state transformer: only the inventory
table is written (the SQL in `order_management.py` lines 60-67 touches no
other table). -/
def apply_restock_delta (s : AppState) (ded : List (String × Qty)) : AppState :=
  { s with inventory := applyRestock s.inventory ded }

/-- `calculate_deduction` as a transformer of the whole store: the SQL it
issues (via `ensure_bom_seeded`) reads and writes only the `bom` table
(`bom_handler.py` lines 38-73), so every other table passes through. -/
def calculate_deduction_app (s : AppState) (cart : List (String × Qty)) :
    AppState × List (String × Qty) :=
  ({ s with bom := (calculate_deduction s.bom cart).1 }, (calculate_deduction s.bom cart).2)

/-- Python `str.strip()`: drop leading and trailing whitespace. -/
def pstrip (s : String) : String :=
  String.mk (((s.data.dropWhile Char.isWhitespace).reverse.dropWhile
    Char.isWhitespace).reverse)

/-- Embeds `SELECT customer_id, customer_name FROM customers WHERE customer_number=?`
(first matching row). -/
def findCustomer : List Customer → String → Option Customer
  | [], _ => none
  | c :: rest, number =>
    if c.customer_number = number then some c else findCustomer rest number

/-- Python `f"{n:04d}"`: decimal rendering zero-padded to width 4. -/
def pad4 (n : Nat) : String :=
  let s := toString n
  if s.length < 4 then String.mk (List.replicate (4 - s.length) '0') ++ s else s

/-- Embeds `get_or_create_customer` (`billing.py` lines 32-57) and the
identical `upsert_customer` (`orders.py` lines 45-64): strip the number,
reject an empty number; return an existing customer; reject a new number with
a blank name; otherwise insert `CUST-{count+1:04d}`.  The Python `None` name
argument is modelled by the empty string (both are falsy in the source's
`if not customer_name` test).  Returns the optional (customer_id, name) pair
and the customers table after the call. -/
def get_or_create_customer (cs : List Customer) (number name : String) :
    Option (String × String) × List Customer :=
  let number := pstrip number
  if number = "" then (none, cs)
  else
    match findCustomer cs number with
    | some c => (some (c.customer_id, c.customer_name), cs)
    | none =>
      if pstrip name = "" then (none, cs)
      else
        let newId := "CUST-" ++ pad4 (cs.length + 1)
        (some (newId, pstrip name), cs ++ [⟨newId, number, pstrip name⟩])

/-- One `INSERT INTO billing (...)` row (`billing.py` lines 156-163,
`orders.py` lines 126-134). -/
def mkBillingRow (invoice_id cust_id : String) (ts : Nat) (it : OrderItem) : BillingRow :=
  ⟨invoice_id, cust_id, it.product_id, it.product_name, it.quantity, it.unit_price,
    it.total, ts⟩

/-- Embeds the save-invoice handler of `billing_page` (`billing.py` lines
139-176): reject an empty customer number; resolve or create the customer
(the handler passes the stored name for an existing customer, which
`get_or_create_customer` ignores, so the name argument is passed through);
insert one billing row per cart item; compute the deduction (which may seed
the BOM table); apply it to inventory.  Returns the state after the handler
and the error message shown, if any. -/
def billing_save (s : AppState) (cart : List OrderItem)
    (customer_number name_input invoice_id : String) (ts : Nat) :
    AppState × Option String :=
  if pstrip customer_number = "" then (s, some "Customer number is empty.")
  else
    match get_or_create_customer s.customers customer_number name_input with
    | (none, cs) =>
      ({ s with customers := cs }, some "Customer name required for new customer.")
    | (some cn, cs) =>
      let s1 := { s with customers := cs }
      let s2 := { s1 with billing := s1.billing ++ cart.map (mkBillingRow invoice_id cn.1 ts) }
      let r := calculate_deduction s2.bom (cart.map (fun it => (it.product_id, it.quantity)))
      let s3 := { s2 with bom := r.1 }
      ({ s3 with inventory := applyDeduction s3.inventory r.2 }, none)

/-- Embeds `load_order_items` (`orders.py` lines 77-91): the `order_items`
rows stored under the given order id, in table order. -/
def load_order_items : List (String × OrderItem) → String → List OrderItem
  | [], _ => []
  | p :: rest, order_id =>
    if p.1 = order_id then p.2 :: load_order_items rest order_id
    else load_order_items rest order_id

/-- Embeds `UPDATE orders SET status='Paid', customer_id=?, customer_number=?,
customer_name=? WHERE order_id=?` (`orders.py` lines 151-153). -/
def setOrderPaid (orders : List OrderHeader) (order_id cid number name : String) :
    List OrderHeader :=
  orders.map (fun o =>
    if o.order_id = order_id then
      { o with
          status := "Paid"
          customer_id := some cid
          customer_number := some number
          customer_name := some name }
    else o)

/-- Embeds the deduction loop of `finalize_payment` (`orders.py` lines
138-148): for each deduction entry, a MERGE that inserts a zero row if absent
followed by an `UPDATE ... quantity - ?`. -/
def applyDeductionOrders (inv : List InvRow) (ded : List (String × Qty)) : List InvRow :=
  if ded = [] then inv
  else ded.foldl (fun acc p => updateQtySub (ensureStep acc p.1) p.1 p.2) inv

/-- Embeds `finalize_payment` (`orders.py` lines 108-155): seed the BOM,
resolve or create the customer (error if impossible), load the order's items
(error if none), insert billing rows, deduct inventory via the BOM, and mark
the order `Paid`.  Note the source never reads the order's current status.
Returns (state, invoice id on success, error message on failure). -/
def finalize_payment (s : AppState)
    (order_id customer_number customer_name_input invoice_id : String) (ts : Nat) :
    AppState × Option String × Option String :=
  let s0 := { s with bom := ensure_bom_seeded s.bom }
  match get_or_create_customer s0.customers customer_number customer_name_input with
  | (none, cs) =>
    ({ s0 with customers := cs }, none, some "Customer name required for new customer.")
  | (some cn, cs) =>
    let s1 := { s0 with customers := cs }
    let items := load_order_items s1.order_items order_id
    if items = [] then (s1, none, some "Order has no items.")
    else
      let s2 := { s1 with billing := s1.billing ++ items.map (mkBillingRow invoice_id cn.1 ts) }
      let r := calculate_deduction s2.bom (items.map (fun it => (it.product_id, it.quantity)))
      let s3 := { s2 with bom := r.1 }
      let s4 := { s3 with inventory := applyDeductionOrders s3.inventory r.2 }
      ({ s4 with orders := setOrderPaid s4.orders order_id cn.1 customer_number cn.2 },
        some invoice_id, none)

/-- Quantity on hand of an ingredient, 0 when the row is absent. -/
def getQtyD (inv : List InvRow) (ing : String) : Qty :=
  match findRow inv ing with
  | some r => r.quantity
  | none => 0

/-- The order item of the double-payment scenario: two units of C1003. -/
def doublePayItem : OrderItem := ⟨"C1003", "Caffe Mocha", 2, 3, 6⟩

/-- Double-payment scenario start: order O1 is Pending with its items saved,
customer 42 is on file, the BOM table is empty (it gets seeded) and the
inventory is empty. -/
def doublePayState : AppState :=
  ⟨[], [], [], [], [⟨"CUST-0001", "42", "Ann"⟩], [⟨"O1", "Pending", none, none, none⟩],
    [("O1", doublePayItem)]⟩

/-- First `finalize_payment` call on O1. -/
def doublePayRun1 : AppState × Option String × Option String :=
  finalize_payment doublePayState "O1" "42" "" "INV-1" 0

/-- Second `finalize_payment` call on the same order, now already Paid. -/
def doublePayRun2 : AppState × Option String × Option String :=
  finalize_payment doublePayRun1.1 "O1" "42" "" "INV-2" 1

/-- Invoice-save logging scenario start: BOM seeded, 100 g of Espresso Beans
on hand, the log table empty, customer 42 on file. -/
def invoiceLogState : AppState :=
  ⟨defaultBomRows, [⟨"Espresso Beans", 100, "g", 0⟩], [], [],
    [⟨"CUST-0001", "42", "Ann"⟩], [], []⟩

/-- The billing-page save handler run on a one-line cart (one C1001). -/
def invoiceLogRun : AppState × Option String :=
  billing_save invoiceLogState [⟨"C1001", "Amaretto", 1, 3, 3⟩] "42" "" "INV-3" 0

/-- Embeds `_get_self_life_days` (`inventory.py` lines 61-71): the shelf-life
query runs inside its own try/except, so a raised exception (the
`Except.error` case of the supplied query outcome) and a missing or null row
both yield `None`. -/
def get_self_life_days (fetchRes : Except String (Option Int)) : Option Int :=
  match fetchRes with
  | Except.error _ => none
  | Except.ok none => none
  | Except.ok (some v) => some v

/-- The body of `log_inventory_change` (`inventory.py` lines 76-114) without
the surrounding try/except: skip missing quantities and zero diffs, derive
the change type from the sign of the diff and the use-before date from the
shelf life (fallback 7 days), then insert one log row.  `insertRes` is the
outcome of the `INSERT INTO inventory_logs`; its `Except.error` case models
the insert raising, which escapes the body. -/
def log_inventory_change_body (fetchRes : Except String (Option Int))
    (insertRes : Except String Unit) (logs : List LogEntry) (ingredient : String)
    (old_qty new_qty : Option Qty) (now : Nat) : Except String (List LogEntry) :=
  match old_qty, new_qty with
  | some o, some n =>
    if n - o = 0 then Except.ok logs
    else
      let change_type := if 0 < n - o then "Added" else "Wasted"
      let shelf_life : Int :=
        match get_self_life_days fetchRes with
        | some d => if d ≤ 0 then 7 else d
        | none => 7
      let use_before := now + shelf_life.toNat
      match insertRes with
      | Except.ok _ =>
        Except.ok (logs ++ [⟨ingredient, change_type, |n - o|, o, n, now, use_before⟩])
      | Except.error e => Except.error e
  | _, _ => Except.ok logs

/-- Embeds `log_inventory_change` (`inventory.py` lines 73-117): the whole
body runs inside try/except whose handler only prints, so every exception is
swallowed and the log table is returned as it was. -/
def log_inventory_change (fetchRes : Except String (Option Int))
    (insertRes : Except String Unit) (logs : List LogEntry) (ingredient : String)
    (old_qty new_qty : Option Qty) (now : Nat) : List LogEntry :=
  match log_inventory_change_body fetchRes insertRes logs ingredient old_qty new_qty now with
  | Except.ok l => l
  | Except.error _ => logs

/-- The MERGE of `save_inventory_df` (`inventory.py` lines 132-144): update
quantity, unit and safety_stock when matched, insert the row otherwise. -/
def mergeUpsertFull (inv : List InvRow) (ing : String) (q : Qty) (unit : String)
    (ss : Qty) : List InvRow :=
  match findRow inv ing with
  | some _ =>
    inv.map (fun r => if r.ingredient = ing then ⟨r.ingredient, q, unit, ss⟩ else r)
  | none => inv ++ [⟨ing, q, unit, ss⟩]

/-- One iteration of the `save_inventory_df` loop (`inventory.py` lines
119-148): read the old quantity, upsert the row, then call
`log_inventory_change` when the row already existed.  The save reports
success regardless of what the logging call did. -/
def save_inventory_row (fetchRes : Except String (Option Int))
    (insertRes : Except String Unit) (s : AppState) (ing : String) (new_qty : Qty)
    (unit : String) (ss : Qty) (now : Nat) : AppState :=
  let old_qty := (findRow s.inventory ing).map (fun r => r.quantity)
  let inv := mergeUpsertFull s.inventory ing new_qty unit ss
  let logs :=
    match old_qty with
    | some o => log_inventory_change fetchRes insertRes s.logs ing (some o) (some new_qty) now
    | none => s.logs
  { s with inventory := inv, logs := logs }

theorem getA_setA (m : List (String × Qty)) (k v i) :
    getA (setA m k v) i = if k = i then v else getA m i := by
  induction m with
  | nil => simp [setA, getA]
  | cons p rest ih =>
    by_cases hp : p.1 = k
    · by_cases hk : k = i <;> simp_all [setA, getA]
    · by_cases hk : k = i <;> by_cases hpi : p.1 = i <;> simp_all [setA, getA]

theorem getA_addTo (m : List (String × Qty)) (k d i) :
    getA (addTo m k d) i = getA m i + if k = i then d else 0 := by
  rw [addTo, getA_setA]
  by_cases hk : k = i
  · simp [hk]
  · simp [hk]

theorem getA_foldl_recipe (l : List (String × Qty)) (q : Qty) (acc : List (String × Qty))
    (i : String) :
    getA (l.foldl (fun a iq => addTo a iq.1 (iq.2 * q)) acc) i
      = getA acc i + ((l.map (fun iq => if iq.1 = i then iq.2 else 0)).sum) * q := by
  induction l generalizing acc with
  | nil => simp
  | cons iq rest ih =>
    simp only [List.foldl_cons, ih, getA_addTo, List.map_cons, List.sum_cons]
    by_cases h : iq.1 = i
    all_goals simp [h]
    all_goals ring

theorem getA_foldl_cart (cart : List (String × Qty)) (b : List BomRow)
    (acc : List (String × Qty)) (i : String) :
    getA (cart.foldl
        (fun acc line =>
          (getRecipe b line.1).foldl (fun a iq => addTo a iq.1 (iq.2 * line.2)) acc)
        acc) i
      = getA acc i + (cart.map (fun line => recipeQty b line.1 i * line.2)).sum := by
  induction cart generalizing acc with
  | nil => simp
  | cons line rest ih =>
    simp only [List.foldl_cons, ih, getA_foldl_recipe, recipeQty, List.map_cons,
      List.sum_cons]
    ring

/-- C1: `calculate_deduction` assigns to each ingredient the sum over all cart
lines of the BOM quantity-per-unit of that ingredient for the line's product
times the line's quantity; the cart [(C1003 Latte, qty 2)] yields
{Espresso Beans: 36, Milk: 400}, and the empty cart yields the empty map. -/
theorem calculate_deduction_bom_sum :
    (∀ b cart ing, getA (calculate_deduction b cart).2 ing
        = (cart.map (fun line => recipeQty (ensure_bom_seeded b) line.1 ing * line.2)).sum)
    ∧ (calculate_deduction [] [("C1003", 2)]).2 = [("Espresso Beans", 36), ("Milk", 400)]
    ∧ (∀ b, (calculate_deduction b []).2 = []) := by
  refine ⟨fun b cart ing => ?_, ?_, fun b => rfl⟩
  · simp [calculate_deduction, getA_foldl_cart, getA]
  · simp [calculate_deduction, ensure_bom_seeded, defaultBomRows, DEFAULT_BOM, getRecipe,
      unitOf, INGREDIENT_UNITS, lookupStr, addTo, setA, getA]
    norm_num

/-- C7: a cart line whose product has no entry in the (seeded) BOM table
contributes nothing and raises no error: the deduction is the same as for the
cart with that line removed. -/
theorem calculate_deduction_skips_missing (b : List BomRow)
    (pre post : List (String × Qty)) (pid : String) (q : Qty)
    (h : getRecipe (ensure_bom_seeded b) pid = []) :
    calculate_deduction b (pre ++ (pid, q) :: post) = calculate_deduction b (pre ++ post) := by
  simp only [calculate_deduction, List.foldl_append, List.foldl_cons, h, List.foldl_nil]

theorem calculate_deduction_skips_missing_witness :
    getRecipe (ensure_bom_seeded []) "C1006" = []
    ∧ calculate_deduction [] ([("C1001", 1)] ++ ("C1006", 3) :: [])
      = calculate_deduction [] ([("C1001", 1)] ++ []) := by
  have h : getRecipe (ensure_bom_seeded []) "C1006" = [] := by
    simp [ensure_bom_seeded, defaultBomRows, DEFAULT_BOM, getRecipe, unitOf,
      INGREDIENT_UNITS, lookupStr]
  exact ⟨h, calculate_deduction_skips_missing [] [("C1001", 1)] [] "C1006" 3 h⟩

/-- C8: `ensure_bom_seeded` populates the BOM table from `DEFAULT_BOM` only
when the table is empty, every call on a non-empty table is a no-op, and the
operation is idempotent. -/
theorem ensure_bom_seeded_idempotent :
    ensure_bom_seeded [] = defaultBomRows
    ∧ (∀ b : List BomRow, b ≠ [] → ensure_bom_seeded b = b)
    ∧ (∀ b : List BomRow, ensure_bom_seeded (ensure_bom_seeded b) = ensure_bom_seeded b) := by
  refine ⟨rfl, fun b hb => ?_, fun b => ?_⟩
  · rw [ensure_bom_seeded, if_pos (by simpa [List.length_pos] using hb)]
  · cases b with
    | nil =>
      have h : 0 < (ensure_bom_seeded ([] : List BomRow)).length := by
        norm_num [ensure_bom_seeded, defaultBomRows, DEFAULT_BOM]
      rw [ensure_bom_seeded.eq_def]
      rw [if_pos h]
    | cons r rest =>
      have h : 0 < (r :: rest).length := by simp
      rw [ensure_bom_seeded.eq_def, ensure_bom_seeded.eq_def]
      simp [h]

theorem ensure_bom_seeded_of_ne_nil (b : List BomRow) (hb : b ≠ []) :
    ensure_bom_seeded b = b := by
  rw [ensure_bom_seeded, if_pos (by simpa [List.length_pos] using hb)]

theorem ensure_bom_seeded_idempotent_witness :
    ([⟨"C9999", "Water", 1, "ml"⟩] : List BomRow) ≠ []
    ∧ ensure_bom_seeded [⟨"C9999", "Water", 1, "ml"⟩] = [⟨"C9999", "Water", 1, "ml"⟩] :=
  ⟨by simp, ensure_bom_seeded_idempotent.2.1 [⟨"C9999", "Water", 1, "ml"⟩] (by simp)⟩

theorem findRow_append_left (inv l : List InvRow) (ing : String) (r : InvRow)
    (h : findRow inv ing = some r) : findRow (inv ++ l) ing = some r := by
  induction inv with
  | nil => simp [findRow] at h
  | cons x rest ih =>
    by_cases hx : x.ingredient = ing
    · simpa [findRow, hx] using h
    · rw [findRow] at h
      rw [if_neg hx] at h
      simpa [findRow, hx] using ih h

theorem findRow_append_right (inv l : List InvRow) (ing : String)
    (h : findRow inv ing = none) : findRow (inv ++ l) ing = findRow l ing := by
  induction inv with
  | nil => simp
  | cons x rest ih =>
    by_cases hx : x.ingredient = ing
    · simp [findRow, hx] at h
    · rw [findRow] at h
      rw [if_neg hx] at h
      simpa [findRow, hx] using ih h

theorem ensureStep_of_present (acc : List InvRow) (ing : String) (r : InvRow)
    (h : findRow acc ing = some r) : ensureStep acc ing = acc := by
  rw [ensureStep, h]

theorem findRow_ensureStep (acc : List InvRow) (j ing : String) (r : InvRow)
    (h : findRow acc ing = some r) : findRow (ensureStep acc j) ing = some r := by
  rw [ensureStep]
  match hj : findRow acc j with
  | some _ => exact h
  | none => exact findRow_append_left _ _ _ _ h

theorem findRow_ensureStep_absent (acc : List InvRow) (j ing : String)
    (hj : j ≠ ing) (h : findRow acc ing = none) :
    findRow (ensureStep acc j) ing = none := by
  rw [ensureStep]
  match hx : findRow acc j with
  | some _ => exact h
  | none =>
    rw [findRow_append_right _ _ _ h]
    simp [findRow, hj]

theorem findRow_ensureStep_self (acc : List InvRow) (ing : String)
    (h : findRow acc ing = none) :
    findRow (ensureStep acc ing) ing = some ⟨ing, 0, unitOf ing, 0⟩ := by
  rw [ensureStep, h, findRow_append_right _ _ _ h]
  simp [findRow]

theorem findRow_fold_ensureStep (ings : List String) (acc : List InvRow) (ing : String)
    (r : InvRow) (h : findRow acc ing = some r) :
    findRow (ings.foldl ensureStep acc) ing = some r := by
  induction ings generalizing acc with
  | nil => exact h
  | cons j rest ih => exact ih _ (findRow_ensureStep _ _ _ _ h)

theorem findRow_fold_ensureStep_created (ings : List String) (acc : List InvRow)
    (ing : String) (hm : ing ∈ ings) (h : findRow acc ing = none) :
    findRow (ings.foldl ensureStep acc) ing = some ⟨ing, 0, unitOf ing, 0⟩ := by
  induction ings generalizing acc with
  | nil => simp at hm
  | cons j rest ih =>
    rw [List.foldl_cons]
    by_cases hj : j = ing
    · subst hj
      exact findRow_fold_ensureStep _ _ _ _ (findRow_ensureStep_self _ _ h)
    · have hm' : ing ∈ rest := by
        rcases List.mem_cons.mp hm with h1 | h1
        · exact absurd h1.symm hj
        · exact h1
      exact ih _ hm' (findRow_ensureStep_absent _ _ _ hj h)

theorem findRow_fold_ensureStep_isSome (ings : List String) (acc : List InvRow)
    (ing : String) (hm : ing ∈ ings) :
    (findRow (ings.foldl ensureStep acc) ing).isSome := by
  match h : findRow acc ing with
  | some r => rw [findRow_fold_ensureStep ings acc ing r h]; rfl
  | none => rw [findRow_fold_ensureStep_created ings acc ing hm h]; rfl

theorem fold_ensureStep_of_all_present (ings : List String) (acc : List InvRow)
    (h : ∀ ing ∈ ings, (findRow acc ing).isSome) :
    ings.foldl ensureStep acc = acc := by
  induction ings with
  | nil => rfl
  | cons j rest ih =>
    have hj := h j (List.mem_cons_self _ _)
    match hjr : findRow acc j with
    | some r =>
      rw [List.foldl_cons, ensureStep_of_present acc j r hjr]
      exact ih (fun ing hing => h ing (List.mem_cons_of_mem _ hing))
    | none => rw [hjr] at hj; simp at hj

/-- C5: `ensure_inventory_rows_exist` preserves every existing inventory row
(quantity and unit untouched), creates a zero-quantity row exactly for the
missing ingredients, and running it a second time with the same ingredient set
leaves the inventory unchanged. -/
theorem ensure_inventory_rows_exist_spec :
    (∀ (inv : List InvRow) (ings : List String) (ing : String) (r : InvRow),
        findRow inv ing = some r →
        findRow (ensure_inventory_rows_exist inv ings) ing = some r)
    ∧ (∀ (inv : List InvRow) (ings : List String) (ing : String),
        ing ∈ ings → findRow inv ing = none →
        findRow (ensure_inventory_rows_exist inv ings) ing = some ⟨ing, 0, unitOf ing, 0⟩)
    ∧ (∀ (inv : List InvRow) (ings : List String),
        ensure_inventory_rows_exist (ensure_inventory_rows_exist inv ings) ings
          = ensure_inventory_rows_exist inv ings) := by
  refine ⟨fun inv ings ing r h => findRow_fold_ensureStep ings inv ing r h,
    fun inv ings ing hm h => findRow_fold_ensureStep_created ings inv ing hm h,
    fun inv ings => ?_⟩
  exact fold_ensureStep_of_all_present ings _
    (fun ing hing => findRow_fold_ensureStep_isSome ings inv ing hing)

theorem ensure_inventory_rows_exist_spec_witness :
    findRow [⟨"Milk", 7, "ml", 0⟩] "Milk" = some ⟨"Milk", 7, "ml", 0⟩
    ∧ findRow (ensure_inventory_rows_exist [⟨"Milk", 7, "ml", 0⟩] ["Milk", "Espresso Beans"])
        "Milk" = some ⟨"Milk", 7, "ml", 0⟩
    ∧ ("Espresso Beans" : String) ∈ ["Milk", "Espresso Beans"]
    ∧ findRow [⟨"Milk", 7, "ml", 0⟩] "Espresso Beans" = none
    ∧ findRow (ensure_inventory_rows_exist [⟨"Milk", 7, "ml", 0⟩] ["Milk", "Espresso Beans"])
        "Espresso Beans" = some ⟨"Espresso Beans", 0, unitOf "Espresso Beans", 0⟩ := by
  have h1 : findRow [⟨"Milk", 7, "ml", 0⟩] "Milk" = some ⟨"Milk", 7, "ml", 0⟩ := by
    simp [findRow]
  have h2 : findRow [⟨"Milk", 7, "ml", 0⟩] "Espresso Beans" = none := by
    simp [findRow]
  have hm : ("Espresso Beans" : String) ∈ ["Milk", "Espresso Beans"] := by simp
  exact ⟨h1, ensure_inventory_rows_exist_spec.1 _ _ _ _ h1, hm, h2,
    ensure_inventory_rows_exist_spec.2.1 _ _ _ hm h2⟩

theorem findRow_updateQtySub (inv : List InvRow) (ing : String) (q : Qty) (r : InvRow)
    (h : findRow inv ing = some r) :
    findRow (updateQtySub inv ing q) ing = some { r with quantity := r.quantity - q } := by
  induction inv with
  | nil => simp [findRow] at h
  | cons x rest ih =>
    by_cases hx : x.ingredient = ing
    · rw [findRow, if_pos hx] at h
      cases h
      simp [updateQtySub, findRow, hx]
    · rw [findRow, if_neg hx] at h
      simpa [updateQtySub, findRow, hx] using ih h

theorem updateQtyAdd_updateQtySub (inv : List InvRow) (ing : String) (q : Qty) :
    updateQtyAdd (updateQtySub inv ing q) ing q = inv := by
  induction inv with
  | nil => rfl
  | cons x rest ih =>
    obtain ⟨xi, xq, xu, xs⟩ := x
    by_cases hx : xi = ing
    · simpa [updateQtySub, updateQtyAdd, hx] using ih
    · simpa [updateQtySub, updateQtyAdd, hx] using ih

/-- C4 (amended): a sale deduction of Q followed by a cancellation restock of Q
on the same ingredient restores the inventory exactly, and — contrary to the
original claim — the two operations append no Inventory Change Log entries
(neither path writes to `inventory_logs`). -/
theorem sale_restock_roundtrip (s : AppState) (ing : String) (q : Qty) (r : InvRow)
    (h : findRow s.inventory ing = some r) :
    (apply_restock_delta (apply_sale_delta s [(ing, q)]) [(ing, q)]).inventory = s.inventory
    ∧ (apply_restock_delta (apply_sale_delta s [(ing, q)]) [(ing, q)]).logs = s.logs := by
  constructor
  · have h1 : ensure_inventory_rows_exist s.inventory [ing] = s.inventory := by
      rw [ensure_inventory_rows_exist, List.foldl_cons, List.foldl_nil,
        ensureStep_of_present _ _ _ h]
    have hsale : (apply_sale_delta s [(ing, q)]).inventory
        = updateQtySub s.inventory ing q := by
      simp [apply_sale_delta, applyDeduction, h1]
    have h2 : findRow (updateQtySub s.inventory ing q) ing
        = some { r with quantity := r.quantity - q } := findRow_updateQtySub _ _ _ _ h
    have h3 : ensure_inventory_rows_exist (updateQtySub s.inventory ing q) [ing]
        = updateQtySub s.inventory ing q := by
      rw [ensure_inventory_rows_exist, List.foldl_cons, List.foldl_nil,
        ensureStep_of_present _ _ _ h2]
    simp [apply_restock_delta, applyRestock, hsale, h3, updateQtyAdd_updateQtySub]
  · rfl

theorem sale_restock_roundtrip_witness :
    findRow ([⟨"Milk", 500, "ml", 0⟩] : List InvRow) "Milk" = some ⟨"Milk", 500, "ml", 0⟩
    ∧ (apply_restock_delta
        (apply_sale_delta ⟨[], [⟨"Milk", 500, "ml", 0⟩], [], [], [], [], []⟩ [("Milk", 400)])
        [("Milk", 400)]).inventory = [⟨"Milk", 500, "ml", 0⟩]
    ∧ (apply_restock_delta
        (apply_sale_delta ⟨[], [⟨"Milk", 500, "ml", 0⟩], [], [], [], [], []⟩ [("Milk", 400)])
        [("Milk", 400)]).logs = [] := by
  have h : findRow ([⟨"Milk", 500, "ml", 0⟩] : List InvRow) "Milk"
      = some ⟨"Milk", 500, "ml", 0⟩ := by simp [findRow]
  have hr := sale_restock_roundtrip ⟨[], [⟨"Milk", 500, "ml", 0⟩], [], [], [], [], []⟩
    "Milk" 400 ⟨"Milk", 500, "ml", 0⟩ h
  exact ⟨h, hr.1, hr.2⟩

/-- C4 counterexample: the sale-deduction and cancellation-restock operations
do not produce two log entries — on a concrete state with an empty log table
the round trip leaves the log length at 0, not 2. -/
theorem sale_restock_no_two_logs :
    ¬ ((apply_restock_delta
        (apply_sale_delta ⟨defaultBomRows, [⟨"Milk", 500, "ml", 0⟩], [], [], [], [], []⟩
          [("Milk", 400)]) [("Milk", 400)]).logs.length
      = (⟨defaultBomRows, [⟨"Milk", 500, "ml", 0⟩], [], [], [], [], []⟩ : AppState).logs.length
        + 2) := by
  simp [apply_restock_delta, apply_sale_delta]

/-- C6 counterexample: `calculate_deduction` is not write-free — called against
an empty BOM table it seeds the table (the state changes), contradicting
"performs no writes to any store (inventory, billing, logs, or BOM)". -/
theorem calculate_deduction_writes_bom :
    ¬ ((calculate_deduction_app ⟨[], [], [], [], [], [], []⟩ []).1
        = (⟨[], [], [], [], [], [], []⟩ : AppState)) := by
  intro h
  have hb := congrArg AppState.bom h
  simp [calculate_deduction_app, calculate_deduction, ensure_bom_seeded, defaultBomRows,
    DEFAULT_BOM] at hb

/-- C6 (amended): `calculate_deduction` is deterministic — identical carts
against the same BOM table yield identical deductions — and writes nothing to
the inventory, billing, log, customer or order stores; its only write is
seeding the `bom` table when that table is empty (when the BOM table is
non-empty the whole store passes through unchanged). -/
theorem calculate_deduction_frame (s : AppState) (cart cart' : List (String × Qty))
    (h : cart' = cart) :
    (calculate_deduction_app s cart).1.inventory = s.inventory
    ∧ (calculate_deduction_app s cart).1.billing = s.billing
    ∧ (calculate_deduction_app s cart).1.logs = s.logs
    ∧ (calculate_deduction_app s cart).1.customers = s.customers
    ∧ (calculate_deduction_app s cart).1.orders = s.orders
    ∧ (calculate_deduction_app s cart).1.order_items = s.order_items
    ∧ (s.bom ≠ [] → (calculate_deduction_app s cart).1 = s)
    ∧ (calculate_deduction_app s cart').2 = (calculate_deduction_app s cart).2 := by
  refine ⟨rfl, rfl, rfl, rfl, rfl, rfl, fun hb => ?_, by rw [h]⟩
  have h2 : (calculate_deduction s.bom cart).1 = s.bom := by
    simp [calculate_deduction, ensure_bom_seeded_of_ne_nil s.bom hb]
  simp [calculate_deduction_app, h2]

theorem calculate_deduction_frame_witness :
    ([("C1003", 2)] : List (String × Qty)) = [("C1003", 2)]
    ∧ (calculate_deduction_app ⟨defaultBomRows, [], [], [], [], [], []⟩ [("C1003", 2)]).1
        = ⟨defaultBomRows, [], [], [], [], [], []⟩
    ∧ (calculate_deduction_app ⟨defaultBomRows, [], [], [], [], [], []⟩ [("C1003", 2)]).2
        = (calculate_deduction_app ⟨defaultBomRows, [], [], [], [], [], []⟩ [("C1003", 2)]).2 := by
  have hfr := calculate_deduction_frame ⟨defaultBomRows, [], [], [], [], [], []⟩
    [("C1003", 2)] [("C1003", 2)] rfl
  refine ⟨rfl, hfr.2.2.2.2.2.2.1 (by simp [defaultBomRows, DEFAULT_BOM]), hfr.2.2.2.2.2.2.2⟩

theorem get_or_create_customer_none (cs : List Customer) (number name : String)
    (h : pstrip number = ""
      ∨ (findCustomer cs (pstrip number) = none ∧ pstrip name = "")) :
    get_or_create_customer cs number name = (none, cs) := by
  rcases h with h | ⟨h1, h2⟩
  · simp [get_or_create_customer, h]
  · by_cases hn : pstrip number = ""
    · simp [get_or_create_customer, hn]
    · simp [get_or_create_customer, hn, h1, h2]

/-- C9: saving an invoice with a missing customer identity (empty customer
number, or a new number with a blank name) fails with a validation error and
commits no partial state: neither the billing-page save handler nor
`finalize_payment` inserts billing rows or changes any inventory quantity. -/
theorem missing_customer_no_partial_state (s : AppState) (cart : List OrderItem)
    (number name invoice_id order_id : String) (ts : Nat)
    (h : pstrip number = ""
      ∨ (findCustomer s.customers (pstrip number) = none ∧ pstrip name = "")) :
    ((billing_save s cart number name invoice_id ts).2.isSome
      ∧ (billing_save s cart number name invoice_id ts).1.billing = s.billing
      ∧ (billing_save s cart number name invoice_id ts).1.inventory = s.inventory)
    ∧ ((finalize_payment s order_id number name invoice_id ts).2.2.isSome
      ∧ (finalize_payment s order_id number name invoice_id ts).1.billing = s.billing
      ∧ (finalize_payment s order_id number name invoice_id ts).1.inventory = s.inventory) := by
  have hg : get_or_create_customer s.customers number name = (none, s.customers) :=
    get_or_create_customer_none _ _ _ h
  constructor
  · by_cases hn : pstrip number = ""
    · simp [billing_save, hn]
    · simp [billing_save, hn, hg]
  · simp [finalize_payment, hg]

theorem missing_customer_no_partial_state_witness :
    (pstrip "z9" = ""
      ∨ (findCustomer (⟨[], [], [], [], [], [], []⟩ : AppState).customers (pstrip "z9") = none
          ∧ pstrip "" = ""))
    ∧ ((billing_save ⟨[], [], [], [], [], [], []⟩ [] "z9" "" "INV-9" 0).2.isSome
      ∧ (billing_save ⟨[], [], [], [], [], [], []⟩ [] "z9" "" "INV-9" 0).1.billing
          = (⟨[], [], [], [], [], [], []⟩ : AppState).billing
      ∧ (billing_save ⟨[], [], [], [], [], [], []⟩ [] "z9" "" "INV-9" 0).1.inventory
          = (⟨[], [], [], [], [], [], []⟩ : AppState).inventory)
    ∧ ((finalize_payment ⟨[], [], [], [], [], [], []⟩ "O9" "z9" "" "INV-9" 0).2.2.isSome
      ∧ (finalize_payment ⟨[], [], [], [], [], [], []⟩ "O9" "z9" "" "INV-9" 0).1.billing
          = (⟨[], [], [], [], [], [], []⟩ : AppState).billing
      ∧ (finalize_payment ⟨[], [], [], [], [], [], []⟩ "O9" "z9" "" "INV-9" 0).1.inventory
          = (⟨[], [], [], [], [], [], []⟩ : AppState).inventory) := by
  have h : pstrip "z9" = ""
      ∨ (findCustomer (⟨[], [], [], [], [], [], []⟩ : AppState).customers (pstrip "z9") = none
          ∧ pstrip "" = "") := by
    right
    exact ⟨by simp [findCustomer], by decide⟩
  have hm := missing_customer_no_partial_state ⟨[], [], [], [], [], [], []⟩ [] "z9" "" "INV-9"
    "O9" 0 h
  exact ⟨h, hm.1, hm.2⟩

/-- C2 is violated by the code: `finalize_payment` never reads the order's
status, so a second call on an order that is already Paid succeeds again —
it deducts the ingredients a second time (Espresso Beans go from -36 to -72)
and inserts a second set of invoice rows (billing grows from 1 to 2 rows)
instead of being rejected or a no-op. -/
theorem finalize_payment_double_charge :
    doublePayRun1.2.2 = none
    ∧ doublePayRun1.1.orders.map (fun o => o.status) = ["Paid"]
    ∧ getQtyD doublePayRun1.1.inventory "Espresso Beans" = -36
    ∧ doublePayRun1.1.billing.length = 1
    ∧ doublePayRun2.2.2 = none
    ∧ getQtyD doublePayRun2.1.inventory "Espresso Beans" = -72
    ∧ doublePayRun2.1.billing.length = 2 := by
  simp [doublePayRun1, doublePayRun2, doublePayState, doublePayItem, finalize_payment,
    get_or_create_customer, pstrip, findCustomer, load_order_items, mkBillingRow,
    calculate_deduction, ensure_bom_seeded, defaultBomRows, DEFAULT_BOM, getRecipe, addTo,
    setA, getA, unitOf, INGREDIENT_UNITS, lookupStr, applyDeductionOrders, ensureStep,
    findRow, updateQtySub, setOrderPaid, getQtyD]
  norm_num

/-- C3 is violated by the code: the invoice-save deduction path changes an
inventory quantity (Espresso Beans drop from 100 to 82) without appending any
Inventory Change Log Entry — the save handler in `billing.py` runs plain
UPDATE statements and never calls `log_inventory_change`. -/
theorem billing_save_deduction_not_logged :
    invoiceLogRun.2 = none
    ∧ getQtyD invoiceLogRun.1.inventory "Espresso Beans" = 82
    ∧ invoiceLogRun.1.logs = [] := by
  simp [invoiceLogRun, invoiceLogState, billing_save, get_or_create_customer, pstrip,
    findCustomer, mkBillingRow, calculate_deduction, ensure_bom_seeded, defaultBomRows,
    DEFAULT_BOM, getRecipe, addTo, setA, getA, unitOf, INGREDIENT_UNITS, lookupStr,
    applyDeduction, ensure_inventory_rows_exist, ensureStep, findRow, updateQtySub, getQtyD]
  norm_num

theorem findRow_mergeUpsertFull_map (inv : List InvRow) (ing : String) (q : Qty)
    (u : String) (ss : Qty) (r : InvRow) (h : findRow inv ing = some r) :
    findRow (inv.map (fun x => if x.ingredient = ing then ⟨x.ingredient, q, u, ss⟩ else x))
      ing = some ⟨r.ingredient, q, u, ss⟩ := by
  induction inv with
  | nil => simp [findRow] at h
  | cons x rest ih =>
    by_cases hx : x.ingredient = ing
    · rw [findRow, if_pos hx] at h
      cases h
      simp [findRow, hx]
    · rw [findRow, if_neg hx] at h
      simpa [findRow, hx] using ih h

theorem getQtyD_mergeUpsertFull (inv : List InvRow) (ing : String) (q : Qty)
    (u : String) (ss : Qty) :
    getQtyD (mergeUpsertFull inv ing q u ss) ing = q := by
  match hf : findRow inv ing with
  | some r =>
    rw [mergeUpsertFull, hf, getQtyD, findRow_mergeUpsertFull_map inv ing q u ss r hf]
  | none =>
    rw [mergeUpsertFull, hf, getQtyD, findRow_append_right _ _ _ hf]
    simp [findRow]

/-- C10: `log_inventory_change` never raises to its caller — whenever its body
ends in an exception the wrapper swallows it and leaves the log table exactly
as it was — and consequently a `save_inventory_df` iteration whose log insert
fails still updates the inventory quantity and returns successfully while
appending no Inventory Change Log Entry. -/
theorem log_inventory_change_never_raises
    (fetchRes : Except String (Option Int)) (insertRes : Except String Unit)
    (logs : List LogEntry) (ingredient msg e : String) (old_qty new_qty : Option Qty)
    (now ts : Nat) (s : AppState) (ing unit : String) (q ss : Qty) (r : InvRow)
    (hb : log_inventory_change_body fetchRes insertRes logs ingredient old_qty new_qty now
        = Except.error msg)
    (h1 : findRow s.inventory ing = some r) (h2 : r.quantity ≠ q) :
    log_inventory_change fetchRes insertRes logs ingredient old_qty new_qty now = logs
    ∧ getQtyD (save_inventory_row fetchRes (Except.error e) s ing q unit ss ts).inventory
        ing = q
    ∧ (save_inventory_row fetchRes (Except.error e) s ing q unit ss ts).logs = s.logs := by
  have hdiff : ¬ (q - r.quantity = 0) := sub_ne_zero.mpr (Ne.symm h2)
  refine ⟨?_, ?_, ?_⟩
  · rw [log_inventory_change, hb]
  · simp [save_inventory_row, getQtyD_mergeUpsertFull]
  · simp [save_inventory_row, h1, log_inventory_change, log_inventory_change_body, hdiff]

theorem log_inventory_change_never_raises_witness :
    log_inventory_change_body (Except.ok none) (Except.error "db down") [] "Milk"
        (some 1) (some 2) 0 = Except.error "db down"
    ∧ findRow (⟨[], [⟨"Milk", 1, "ml", 0⟩], [], [], [], [], []⟩ : AppState).inventory "Milk"
        = some ⟨"Milk", 1, "ml", 0⟩
    ∧ (⟨"Milk", 1, "ml", 0⟩ : InvRow).quantity ≠ 2
    ∧ log_inventory_change (Except.ok none) (Except.error "db down") [] "Milk"
        (some 1) (some 2) 0 = []
    ∧ getQtyD (save_inventory_row (Except.ok none) (Except.error "db crash")
        ⟨[], [⟨"Milk", 1, "ml", 0⟩], [], [], [], [], []⟩ "Milk" 2 "ml" 0 0).inventory
        "Milk" = 2
    ∧ (save_inventory_row (Except.ok none) (Except.error "db crash")
        ⟨[], [⟨"Milk", 1, "ml", 0⟩], [], [], [], [], []⟩ "Milk" 2 "ml" 0 0).logs
        = (⟨[], [⟨"Milk", 1, "ml", 0⟩], [], [], [], [], []⟩ : AppState).logs := by
  have hb : log_inventory_change_body (Except.ok none) (Except.error "db down") [] "Milk"
      (some 1) (some 2) 0 = Except.error "db down" := by
    norm_num [log_inventory_change_body, get_self_life_days]
  have h1 : findRow (⟨[], [⟨"Milk", 1, "ml", 0⟩], [], [], [], [], []⟩ : AppState).inventory
      "Milk" = some ⟨"Milk", 1, "ml", 0⟩ := by simp [findRow]
  have h2 : (⟨"Milk", 1, "ml", 0⟩ : InvRow).quantity ≠ 2 := by norm_num
  have hm := log_inventory_change_never_raises (Except.ok none) (Except.error "db down")
    [] "Milk" "db down" "db crash" (some 1) (some 2) 0 0
    ⟨[], [⟨"Milk", 1, "ml", 0⟩], [], [], [], [], []⟩ "Milk" "ml" 2 0 ⟨"Milk", 1, "ml", 0⟩
    hb h1 h2
  exact ⟨hb, h1, h2, hm.1, hm.2.1, hm.2.2⟩

end COPX
